import Mathlib

/-!
Verification of the DSA Algorithm Visualizer playback engine and step
producers.

The development shallowly embeds the JavaScript sources:

* `AnimationController` (animator module): the playback engine.  Machine
  numbers are embedded as `ℤ` (step indices) and `ℚ` (speed, durations,
  progress); the `requestAnimationFrame` loop is embedded as explicit
  `tick` events whose boolean argument records whether the elapsed time
  since the last advance reached the effective step duration.
* `KMPMatcher` (kmp.js): `buildLPS` and `search`, with the recorded
  visualization states.
* `TowerOfHanoi` (towerOfHanoi.js): `generateStates` and `getMinMoves`.
* `NQueens` (nQueens.js): `generateStates` with the `findFirst` flag.
-/

namespace AnimationController

/-- JavaScript floating-point results for the expressions the engine
computes: either an ordinary (here: rational) number, `NaN`, or a signed
infinity.  Only division and multiplication by a constant occur. -/
inductive JsNum where
  | num (q : ℚ)
  | nan
  | inf
  | negInf
  deriving Repr, DecidableEq

/-- JavaScript division `a / b` for number operands that are exact
rationals: division by zero yields `NaN` for `0 / 0` and a signed
infinity otherwise. -/
def jsDiv (a b : ℚ) : JsNum :=
  if b = 0 then
    if a = 0 then JsNum.nan else if 0 < a then JsNum.inf else JsNum.negInf
  else JsNum.num (a / b)

/-- JavaScript multiplication of a possibly non-finite number by a
positive rational constant (the engine only multiplies by 100). -/
def jsMulPos (a : JsNum) (b : ℚ) : JsNum :=
  match a with
  | JsNum.num q => JsNum.num (q * b)
  | JsNum.nan => JsNum.nan
  | JsNum.inf => JsNum.inf
  | JsNum.negInf => JsNum.negInf

/-- State of an `AnimationController`, from the constructor.
`lastFrameTime` and `animationFrameId` are real-time/scheduler handles;
the frame callbacks they drive are embedded as explicit `tick` events,
and the callbacks `onStepChange`/`onComplete`/`onStateChange` are
embedded as the derived payload `stateChangePayload`.  The snapshot type
is a parameter `α`: the engine treats snapshots as opaque. -/
structure State (α : Type) where
  isPlaying : Bool
  isPaused : Bool
  currentStep : ℤ
  totalSteps : ℕ
  speed : ℚ
  steps : List α
  stepDuration : ℚ
  deriving Repr, DecidableEq

/-- The constructor: not playing, not paused, step 0, no steps, speed 1,
base step duration 500 ms. -/
def init (α : Type) : State α :=
  { isPlaying := false
    isPaused := false
    currentStep := 0
    totalSteps := 0
    speed := 1
    steps := []
    stepDuration := 500 }

variable {α : Type}

/-- `setSteps(steps)`: store the steps, set `totalSteps` to their count,
reset `currentStep` to 0.  (The play/pause flags are not touched.) -/
def setSteps (steps : List α) (s : State α) : State α :=
  { s with steps := steps, totalSteps := steps.length, currentStep := 0 }

/-- `getCurrentState()`: `steps[currentStep] || null`. -/
def getCurrentState (s : State α) : Option α :=
  if h : 0 ≤ s.currentStep ∧ s.currentStep.toNat < s.steps.length then
    some (s.steps.get ⟨s.currentStep.toNat, h.2⟩)
  else none

/-- `setSpeed(speed)`: `Math.max(0.25, Math.min(4, speed))`. -/
def setSpeed (x : ℚ) (s : State α) : State α :=
  { s with speed := max 0.25 (min 4 x) }

/-- `getEffectiveDuration()`: `stepDuration / speed`. -/
def getEffectiveDuration (s : State α) : ℚ :=
  s.stepDuration / s.speed

/-- `pause()`: clear `isPlaying`, set `isPaused`, cancel the pending
animation frame. -/
def pause (s : State α) : State α :=
  { s with isPlaying := false, isPaused := true }

/-- `reset()`: set `currentStep` to 0. -/
def reset (s : State α) : State α :=
  { s with currentStep := 0 }

/-- One body of the `animate()` loop, reached via a scheduled animation
frame.  `elapsed` records whether `deltaTime >= getEffectiveDuration()`.
If so and the final index is not yet reached, advance one step;
otherwise at the final index, `pause()` and fire `onComplete`. -/
def tick (elapsed : Bool) (s : State α) : State α :=
  if s.isPlaying then
    if elapsed then
      if s.currentStep < (s.totalSteps : ℤ) - 1 then
        { s with currentStep := s.currentStep + 1 }
      else pause s
    else s
  else s

/-- `play()`: if `currentStep >= totalSteps - 1`, `reset()`; then set
`isPlaying`, clear `isPaused`, record `lastFrameTime = now`, and call
`animate()` synchronously.  That first synchronous `animate()` measures
an elapsed time of (essentially) zero against an effective duration of
at least 125 ms, so it is embedded as `tick false`: it schedules the
next frame without advancing. -/
def play (s : State α) : State α :=
  let s := if (s.totalSteps : ℤ) - 1 ≤ s.currentStep then reset s else s
  tick false { s with isPlaying := true, isPaused := false }

/-- `toggle()`: pause if playing, else play. -/
def toggle (s : State α) : State α :=
  if s.isPlaying then pause s else play s

/-- `stop()`: `pause()` then `currentStep = 0`. -/
def stop (s : State α) : State α :=
  { pause s with currentStep := 0 }

/-- `goToStep(step)`: `Math.max(0, Math.min(step, totalSteps - 1))`. -/
def goToStep (step : ℤ) (s : State α) : State α :=
  { s with currentStep := max 0 (min step ((s.totalSteps : ℤ) - 1)) }

/-- `stepForward()`: increment `currentStep` when below the final
index. -/
def stepForward (s : State α) : State α :=
  if s.currentStep < (s.totalSteps : ℤ) - 1 then
    { s with currentStep := s.currentStep + 1 }
  else s

/-- `stepBackward()`: decrement `currentStep` when above 0. -/
def stepBackward (s : State α) : State α :=
  if 0 < s.currentStep then { s with currentStep := s.currentStep - 1 }
  else s

/-- The payload `notifyStateChange()` hands to `onStateChange`.  The
`progress` field is computed with JavaScript number semantics,
`totalSteps > 0 ? (currentStep / (totalSteps - 1)) * 100 : 0`. -/
structure Payload where
  isPlaying : Bool
  isPaused : Bool
  currentStep : ℤ
  totalSteps : ℕ
  speed : ℚ
  progress : JsNum
  deriving Repr, DecidableEq

/-- `notifyStateChange()`'s payload, as a function of the state. -/
def stateChangePayload (s : State α) : Payload :=
  { isPlaying := s.isPlaying
    isPaused := s.isPaused
    currentStep := s.currentStep
    totalSteps := s.totalSteps
    speed := s.speed
    progress :=
      if 0 < s.totalSteps then
        jsMulPos (jsDiv (s.currentStep : ℚ) ((s.totalSteps : ℚ) - 1)) 100
      else JsNum.num 0 }

/-- The engine calls that leave the loaded sequence in place: the public
controls plus the frame-driven `tick`s of the advancing loop. -/
inductive Ev where
  | play
  | pause
  | toggle
  | stop
  | reset
  | goToStep (i : ℤ)
  | stepForward
  | stepBackward
  | setSpeed (x : ℚ)
  | tick (elapsed : Bool)
  deriving Repr, DecidableEq

/-- Apply one engine call. -/
def applyEv (e : Ev) (s : State α) : State α :=
  match e with
  | Ev.play => play s
  | Ev.pause => pause s
  | Ev.toggle => toggle s
  | Ev.stop => stop s
  | Ev.reset => reset s
  | Ev.goToStep i => goToStep i s
  | Ev.stepForward => stepForward s
  | Ev.stepBackward => stepBackward s
  | Ev.setSpeed x => setSpeed x s
  | Ev.tick b => tick b s

/-- Apply a finite sequence of engine calls, oldest first. -/
def applyEvs (evs : List Ev) (s : State α) : State α :=
  evs.foldl (fun s e => applyEv e s) s

/-- Well-formedness of a controller state: `totalSteps` counts the
loaded steps and `currentStep` is clamped into the valid range (0 when
no sequence is loaded). -/
def Inv (s : State α) : Prop :=
  s.totalSteps = s.steps.length ∧
    0 ≤ s.currentStep ∧ s.currentStep ≤ max 0 ((s.steps.length : ℤ) - 1)

theorem inv_applyEv (e : Ev) (s : State α) (h : Inv s) : Inv (applyEv e s) := by
  obtain ⟨ht, h0, h1⟩ := h
  cases e <;>
    simp only [applyEv, play, pause, toggle, stop, reset, goToStep,
      stepForward, stepBackward, setSpeed, tick, Inv] <;>
    (try split_ifs) <;>
    refine ⟨?_, ?_, ?_⟩ <;> (try simp_all) <;> omega

theorem steps_applyEv (e : Ev) (s : State α) : (applyEv e s).steps = s.steps := by
  cases e <;>
    simp only [applyEv, play, pause, toggle, stop, reset, goToStep,
      stepForward, stepBackward, setSpeed, tick] <;>
    (try split_ifs) <;> rfl

theorem inv_applyEvs (evs : List Ev) (s : State α) (h : Inv s) :
    Inv (applyEvs evs s) := by
  induction evs generalizing s with
  | nil => exact h
  | cons e evs ih => exact ih _ (inv_applyEv e s h)

theorem steps_applyEvs (evs : List Ev) (s : State α) :
    (applyEvs evs s).steps = s.steps := by
  induction evs generalizing s with
  | nil => rfl
  | cons e evs ih => exact (ih _).trans (steps_applyEv e s)

theorem inv_setSteps (steps : List α) (s : State α) :
    Inv (setSteps steps s) := by
  refine ⟨rfl, le_refl 0, ?_⟩
  simp [setSteps]

end AnimationController

namespace AnimationController

theorem inv_init : Inv (init α) :=
  ⟨rfl, le_refl 0, by simp [init]⟩

theorem totalSteps_eq_of_inv {s : State α} (h : Inv s) :
    s.totalSteps = s.steps.length := h.1

end AnimationController

open AnimationController

/-- C1: for a loaded non-empty sequence of length `N`, the current step
index stays in `[0, N-1]` after any finite sequence of engine calls
(the listed controls plus the frame ticks they schedule); and starting
from an engine with no sequence, or a loaded empty sequence, the index
stays 0.  Totality of the embedded operations reflects that no call
throws. -/
theorem c1_position_always_in_range (steps : List ℕ) (evs : List Ev)
    (hne : steps ≠ []) :
    (0 ≤ (applyEvs evs (setSteps steps (init ℕ))).currentStep ∧
      (applyEvs evs (setSteps steps (init ℕ))).currentStep ≤ (steps.length : ℤ) - 1) ∧
    (applyEvs evs (init ℕ)).currentStep = 0 ∧
    (applyEvs evs (setSteps [] (init ℕ))).currentStep = 0 := by
  have h1 := inv_applyEvs evs _ (inv_setSteps steps (init ℕ))
  have hs1 : (applyEvs evs (setSteps steps (init ℕ))).steps = steps :=
    steps_applyEvs evs _
  have h2 := inv_applyEvs evs _ (inv_init (α := ℕ))
  have hs2 : (applyEvs evs (init ℕ)).steps = [] := steps_applyEvs evs _
  have h3 := inv_applyEvs evs _ (inv_setSteps [] (init ℕ))
  have hs3 : (applyEvs evs (setSteps [] (init ℕ))).steps = [] :=
    steps_applyEvs evs _
  obtain ⟨-, h1a, h1b⟩ := h1
  obtain ⟨-, h2a, h2b⟩ := h2
  obtain ⟨-, h3a, h3b⟩ := h3
  rw [hs1] at h1b
  rw [hs2] at h2b
  rw [hs3] at h3b
  have hlen : 1 ≤ steps.length := List.length_pos.mpr hne
  simp only [List.length_nil] at h2b h3b
  refine ⟨⟨h1a, by omega⟩, by omega, by omega⟩

/-- Witness for C1 at a concrete run: load `[7]`, then
play, one elapsed frame, one manual forward step. -/
theorem c1_position_always_in_range_witness :
    (0 ≤ (applyEvs [Ev.play, Ev.tick true, Ev.stepForward]
        (setSteps [7] (init ℕ))).currentStep ∧
      (applyEvs [Ev.play, Ev.tick true, Ev.stepForward]
        (setSteps [7] (init ℕ))).currentStep ≤ (([7] : List ℕ).length : ℤ) - 1) ∧
    (applyEvs [Ev.play, Ev.tick true, Ev.stepForward] (init ℕ)).currentStep = 0 ∧
    (applyEvs [Ev.play, Ev.tick true, Ev.stepForward]
      (setSteps [] (init ℕ))).currentStep = 0 :=
  c1_position_always_in_range [7] [Ev.play, Ev.tick true, Ev.stepForward] (by simp)

/-- C2 counterexample: loading a new sequence into an engine that is
Playing does not cancel playback — after `setSteps` the engine still has
`isPlaying = true`, contradicting the claim that a load leaves the
engine no longer playing. -/
theorem c2_setSteps_does_not_cancel_playback :
    (setSteps [1, 2] (play (setSteps [0] (init ℕ)))).isPlaying = true := by
  decide

/-- C2 amended: `setSteps` replaces the sequence and resets the current
step index to 0, but leaves the playing/paused flags untouched — an
in-flight advancing loop is not cancelled and continues over the new
sequence. -/
theorem c2_setSteps_replaces_and_resets (steps : List ℕ) (s : State ℕ) :
    (setSteps steps s).steps = steps ∧
    (setSteps steps s).totalSteps = steps.length ∧
    (setSteps steps s).currentStep = 0 ∧
    (setSteps steps s).isPlaying = s.isPlaying ∧
    (setSteps steps s).isPaused = s.isPaused :=
  ⟨rfl, rfl, rfl, rfl, rfl⟩

/-- C4: with a sequence of length `N ≥ 1` loaded and the index at the
final position `N-1`, `play()` resets the index to 0 within the call
(its synchronous `animate()` cannot advance, embedded as `tick false`)
and transitions to Playing. -/
theorem c4_play_at_end_restarts (s : State ℕ)
    (_hne : s.steps ≠ []) (ht : s.totalSteps = s.steps.length)
    (hc : s.currentStep = (s.steps.length : ℤ) - 1) :
    (play s).currentStep = 0 ∧ (play s).isPlaying = true ∧
    (play s).isPaused = false := by
  have hcond : (s.totalSteps : ℤ) - 1 ≤ s.currentStep := by
    rw [ht, hc]
  simp [play, reset, tick, pause, hcond]

/-- Witness for C4: a two-snapshot sequence scrubbed to its final
index, then played. -/
theorem c4_play_at_end_restarts_witness :
    (play (goToStep 1 (setSteps [10, 20] (init ℕ)))).currentStep = 0 ∧
    (play (goToStep 1 (setSteps [10, 20] (init ℕ)))).isPlaying = true ∧
    (play (goToStep 1 (setSteps [10, 20] (init ℕ)))).isPaused = false :=
  c4_play_at_end_restarts (goToStep 1 (setSteps [10, 20] (init ℕ)))
    (by simp [setSteps, goToStep]) (by rfl) (by decide)

/-- C5: boundary clamping without wraparound — `stepForward` at the
final index and `stepBackward` at 0 leave the position unchanged, and
`goToStep` clamps negative targets to 0 and too-large targets to
`N-1`. -/
theorem c5_boundary_clamping (s : State ℕ) (i : ℤ)
    (ht : s.totalSteps = s.steps.length) (hne : s.steps ≠ []) :
    (s.currentStep = (s.steps.length : ℤ) - 1 →
      (stepForward s).currentStep = s.currentStep) ∧
    (s.currentStep = 0 → (stepBackward s).currentStep = 0) ∧
    (i < 0 → (goToStep i s).currentStep = 0) ∧
    ((s.steps.length : ℤ) ≤ i →
      (goToStep i s).currentStep = (s.steps.length : ℤ) - 1) := by
  have hlen : 1 ≤ s.steps.length := List.length_pos.mpr hne
  refine ⟨?_, ?_, ?_, ?_⟩
  · intro hc
    simp only [stepForward, ht, hc]
    split_ifs with h
    · omega
    · omega
  · intro hc
    simp only [stepBackward, hc]
    split_ifs with h
    · omega
    · omega
  · intro hi
    simp only [goToStep, ht]
    omega
  · intro hi
    simp only [goToStep, ht]
    omega

/-- Witness for C5 on a one-snapshot sequence (index 0 is both the first
and the final position), with seek targets `-3` and `7`. -/
theorem c5_boundary_clamping_witness :
    (stepForward (setSteps [9] (init ℕ))).currentStep =
      (setSteps [9] (init ℕ)).currentStep ∧
    (stepBackward (setSteps [9] (init ℕ))).currentStep = 0 ∧
    (goToStep (-3) (setSteps [9] (init ℕ))).currentStep = 0 ∧
    (goToStep 7 (setSteps [9] (init ℕ))).currentStep =
      ((([9] : List ℕ).length : ℤ) - 1) := by
  refine ⟨?_, ?_, ?_, ?_⟩
  · exact (c5_boundary_clamping (setSteps [9] (init ℕ)) (-3) rfl (by decide)).1 (by decide)
  · exact (c5_boundary_clamping (setSteps [9] (init ℕ)) (-3) rfl (by decide)).2.1 (by decide)
  · exact (c5_boundary_clamping (setSteps [9] (init ℕ)) (-3) rfl (by decide)).2.2.1 (by decide)
  · exact (c5_boundary_clamping (setSteps [9] (init ℕ)) 7 rfl (by decide)).2.2.2 (by decide)

/-- C6: `setSpeed(x)` stores `x` clamped into `[0.25, 4]` — below the
range it yields 0.25, above it 4 — and never changes the current step
position. -/
theorem c6_setSpeed_clamps (x : ℚ) (s : State ℕ) :
    (setSpeed x s).speed = max 0.25 (min 4 x) ∧
    (0.25 ≤ (setSpeed x s).speed ∧ (setSpeed x s).speed ≤ 4) ∧
    (x < 0.25 → (setSpeed x s).speed = 0.25) ∧
    (4 < x → (setSpeed x s).speed = 4) ∧
    (setSpeed x s).currentStep = s.currentStep := by
  have hsp : (setSpeed x s).speed = max 0.25 (min 4 x) := rfl
  refine ⟨hsp, ⟨?_, ?_⟩, ?_, ?_, rfl⟩
  · rw [hsp]
    exact le_max_left _ _
  · rw [hsp, max_le_iff]
    exact ⟨by norm_num, min_le_left _ _⟩
  · intro h
    rw [hsp, min_eq_right (by linarith : x ≤ 4), max_eq_left (le_of_lt h)]
  · intro h
    rw [hsp, min_eq_left (le_of_lt h), max_eq_right (by norm_num)]

/-- Witness for C6 at the out-of-range inputs `1/8` and `9`. -/
theorem c6_setSpeed_clamps_witness :
    (setSpeed (1/8) (init ℕ)).speed = 0.25 ∧
    (setSpeed 9 (init ℕ)).speed = 4 ∧
    (setSpeed 9 (init ℕ)).currentStep = (init ℕ).currentStep :=
  ⟨(c6_setSpeed_clamps (1/8) (init ℕ)).2.2.1 (by norm_num),
    (c6_setSpeed_clamps 9 (init ℕ)).2.2.2.1 (by norm_num),
    (c6_setSpeed_clamps 9 (init ℕ)).2.2.2.2⟩

/-- C10: with a one-snapshot sequence loaded, every status payload the
engine can broadcast carries `progress = (0 / 0) * 100 = NaN`: the
`totalSteps > 0` guard admits `totalSteps = 1`, where the divisor
`totalSteps - 1` is zero, so the progress is never a number (in
particular never a number in `[0, 100]`). -/
theorem c10_progress_nan_for_singleton (snap : ℕ) (evs : List Ev) :
    (stateChangePayload (applyEvs evs (setSteps [snap] (init ℕ)))).progress
      = JsNum.nan ∧
    ∀ q : ℚ,
      (stateChangePayload (applyEvs evs (setSteps [snap] (init ℕ)))).progress
        ≠ JsNum.num q := by
  have hInv := inv_applyEvs evs _ (inv_setSteps [snap] (init ℕ))
  have hs : (applyEvs evs (setSteps [snap] (init ℕ))).steps = [snap] :=
    steps_applyEvs evs _
  obtain ⟨ht, h0, h1⟩ := hInv
  rw [hs] at ht h1
  simp only [List.length_singleton] at ht h1
  have hc : (applyEvs evs (setSteps [snap] (init ℕ))).currentStep = 0 := by omega
  constructor
  · simp [stateChangePayload, ht, hc, jsDiv, jsMulPos]
  · intro q
    simp [stateChangePayload, ht, hc, jsDiv, jsMulPos]

namespace KMPMatcher

/-- Which `states.push` site of `search` produced a state.  The
presentation-only fields of the pushed objects (the `description`
string, the `comparing` pair, the `jump`/`mismatch`/`matchFound`
markers) are determined by this tag together with the data fields. -/
inductive StateKind where
  | lpsBuilt
  | comparing
  | matchFound
  | mismatchJump
  | mismatchAdvance
  | complete
  deriving Repr, DecidableEq

/-- Data fields of one visualization state pushed by `search`:
the text/pattern indices, the LPS array, and the matches found so
far, plus the push-site tag. -/
structure SearchState where
  kind : StateKind
  textIndex : ℕ
  patternIndex : ℕ
  lps : List ℕ
  matchesFound : List ℕ  -- source field name: matches (a keyword here)
  deriving Repr, DecidableEq

/-- The `while (i < pattern.length)` loop of `buildLPS`.  The loop
always terminates (a step either advances `i` or strictly decreases
`len` via `lps[len - 1] <= len - 1`); the fuel argument makes the
recursion structural, and `buildLPS` supplies more fuel than the loop
can consume.  `lps` always has length `i`, so the assignment
`lps[i] = value` is an append; `lps[len - 1]` is always in range in the
source, embedded as `getD` with default 0. -/
def buildLPSGo (pattern : List Char) : ℕ → List ℕ → ℕ → ℕ → List ℕ
  | 0, lps, _, _ => lps
  | fuel + 1, lps, len, i =>
    if i < pattern.length then
      if pattern.get? i = pattern.get? len then
        buildLPSGo pattern fuel (lps ++ [len + 1]) (len + 1) (i + 1)
      else
        if len ≠ 0 then
          buildLPSGo pattern fuel lps (lps.getD (len - 1) 0) i
        else
          buildLPSGo pattern fuel (lps ++ [0]) 0 (i + 1)
    else lps

/-- `buildLPS(pattern)`: `lps = [0]`, `len = 0`, `i = 1`, then the
loop.  Fuel `2 * m + 1` exceeds the at most `m - 1` advances of `i`
plus at most `m - 1` decreases of `len`. -/
def buildLPS (pattern : List Char) : List ℕ :=
  buildLPSGo pattern (2 * pattern.length + 1) [0] 0 1

/-- The `while (i < n)` loop of `search`.  `i`/`j` are the text and
pattern indices; each iteration pushes a `comparing` state and then
either advances (pushing a `matchFound` state when `j` reaches `m`) or
handles a mismatch.  `matches.push(i - j)` happens where `j = m ≤ i`,
so the truncated subtraction agrees with the source.  Terminates for
the same reason as `buildLPSGo`; fuel is supplied in excess by
`search`. -/
def searchGo (text pattern : List Char) (lps : List ℕ) :
    ℕ → ℕ → ℕ → List ℕ → List SearchState → List ℕ × List SearchState
  | 0, _, _, ms, states => (ms, states)
  | fuel + 1, i, j, ms, states =>
    if i < text.length then
      let states := states ++ [⟨StateKind.comparing, i, j, lps, ms⟩]
      if text.get? i = pattern.get? j then
        if j + 1 = pattern.length then
          let ms := ms ++ [i + 1 - (j + 1)]
          let states := states ++
            [⟨StateKind.matchFound, i + 1, j + 1, lps, ms⟩]
          searchGo text pattern lps fuel (i + 1) (lps.getD j 0) ms states
        else
          searchGo text pattern lps fuel (i + 1) (j + 1) ms states
      else
        if j ≠ 0 then
          let states := states ++
            [⟨StateKind.mismatchJump, i, j, lps, ms⟩]
          searchGo text pattern lps fuel i (lps.getD (j - 1) 0) ms states
        else
          let states := states ++
            [⟨StateKind.mismatchAdvance, i, j, lps, ms⟩]
          searchGo text pattern lps fuel (i + 1) j ms states
    else (ms, states)

/-- `search()`: returns the matches together with the recorded states
(`this.states` after the call, starting from the `reset()`).  With an
empty pattern or empty text it returns immediately: no matches and no
states. -/
def search (text pattern : List Char) : List ℕ × List SearchState :=
  if pattern.length = 0 ∨ text.length = 0 then ([], [])
  else
    let lps := buildLPS pattern
    let r := searchGo text pattern lps (2 * text.length + pattern.length + 1)
      0 0 [] [⟨StateKind.lpsBuilt, 0, 0, lps, []⟩]
    (r.1, r.2 ++ [⟨StateKind.complete, text.length, 0, lps, r.1⟩])

end KMPMatcher

/-- C3 counterexample: a completed `search` run with a non-empty text
and an empty pattern records an empty snapshot sequence — not the
non-empty (at least one snapshot) sequence the claim requires of every
completed run. -/
theorem c3_empty_pattern_yields_no_states :
    (KMPMatcher.search ['A'] []).2 = [] := by
  decide

/-- C3 amended: a completed `search` run with non-empty text and
non-empty pattern records a non-empty snapshot sequence; with an empty
pattern or empty text it degrades to an *empty* snapshot sequence and
an empty match list, still without signaling failure (the embedding is
total). -/
theorem c3_kmp_states_nonempty (text pattern : List Char)
    (htext : text ≠ []) (hpat : pattern ≠ []) :
    (KMPMatcher.search text pattern).2 ≠ [] ∧
    (∀ t : List Char, KMPMatcher.search t [] = ([], [])) ∧
    (∀ p : List Char, KMPMatcher.search [] p = ([], [])) := by
  refine ⟨?_, ?_, ?_⟩
  · have hcond : ¬(pattern = [] ∨ text = []) := by
      simp [htext, hpat]
    simp [KMPMatcher.search, hcond]
  · intro t
    simp [KMPMatcher.search]
  · intro p
    simp [KMPMatcher.search]

/-- Witness for C3 (amended) at text `"AB"`, pattern `"A"`. -/
theorem c3_kmp_states_nonempty_witness :
    (KMPMatcher.search ['A', 'B'] ['A']).2 ≠ [] ∧
    (∀ t : List Char, KMPMatcher.search t [] = ([], [])) ∧
    (∀ p : List Char, KMPMatcher.search [] p = ([], [])) :=
  c3_kmp_states_nonempty ['A', 'B'] ['A'] (by simp) (by simp)

/-- C7: KMP search over text `ABABDABACDABABCABAB` with pattern
`ABABCABAB` reports exactly one match, at text index 10. -/
theorem c7_kmp_example_match :
    (KMPMatcher.search "ABABDABACDABABCABAB".toList "ABABCABAB".toList).1
      = [10] := by
  decide

namespace TowerOfHanoi

/-- A recorded move.  Source field names are `disk`, `from`, `to`
(`from` is a reserved word here, hence `fromPeg`/`toPeg`). -/
structure Move where
  disk : ℕ
  fromPeg : ℕ
  toPeg : ℕ
  deriving Repr, DecidableEq

/-- One state pushed by `generateStates`: the pegs after the move, the
move itself (absent for the initial state), its 1-based number, the
moving disk and source/target pegs, and the description string. -/
structure HanoiState where
  pegs : List (List ℕ)
  move : Option Move
  moveNumber : ℕ
  movingDisk : Option ℕ
  fromPeg : Option ℕ
  toPeg : Option ℕ
  description : String
  deriving Repr, DecidableEq

/-- `Array.from({length: n}, (_, i) => n - i)`: the full starting peg
`[n, n-1, ..., 1]` (bottom of the stack first, top last). -/
def initialPeg (numDisks : ℕ) : List ℕ :=
  (List.range numDisks).map (fun i => numDisks - i)

/-- `getMinMoves()`: `Math.pow(2, numDisks) - 1`. -/
def getMinMoves (numDisks : ℕ) : ℕ :=
  2 ^ numDisks - 1

/-- The local `recordMoves` recursion of `generateStates`: classic
Hanoi, emitting `{disk: n, from: source, to: target}` between the two
recursive calls. -/
def recordMoves : ℕ → ℕ → ℕ → ℕ → List Move
  | 0, _, _, _ => []
  | n + 1, source, target, auxiliary =>
    recordMoves n source auxiliary target
      ++ [⟨n + 1, source, target⟩]
      ++ recordMoves n auxiliary target source

/-- One `moves.forEach` body: `pegs[move.from].pop()` then
`pegs[move.to].push(disk)`.  A pop of an empty peg would push JS
`undefined`; that case cannot arise from `recordMoves` and is embedded
as pushing nothing. -/
def applyMove (pegs : List (List ℕ)) (m : Move) : List (List ℕ) :=
  let disk := (pegs.getD m.fromPeg []).getLast?
  let pegs := pegs.set m.fromPeg (pegs.getD m.fromPeg []).dropLast
  pegs.set m.toPeg (pegs.getD m.toPeg [] ++ disk.toList)

/-- The `moves.forEach` loop: thread the mutable `pegs` through the
moves, pushing one state per move with its 1-based `moveNumber` and the
interpolated description. -/
def statesOfMoves (pegs : List (List ℕ)) (index : ℕ) :
    List Move → List HanoiState
  | [] => []
  | m :: rest =>
    let pegs := applyMove pegs m
    { pegs := pegs
      move := some m
      moveNumber := index + 1
      movingDisk := some m.disk
      fromPeg := some m.fromPeg
      toPeg := some m.toPeg
      description := "Move disk " ++ toString m.disk ++ " from Peg "
        ++ toString (m.fromPeg + 1) ++ " to Peg "
        ++ toString (m.toPeg + 1) } :: statesOfMoves pegs (index + 1) rest

/-- `generateStates()`: the initial state followed by one state per
recorded move of `recordMoves(numDisks, 0, 2, 1)`. -/
def generateStates (numDisks : ℕ) : List HanoiState :=
  { pegs := [initialPeg numDisks, [], []]
    move := none
    moveNumber := 0
    movingDisk := none
    fromPeg := none
    toPeg := none
    description := "Initial state: All disks on the first peg" }
    :: statesOfMoves [initialPeg numDisks, [], []] 0 (recordMoves numDisks 0 2 1)

end TowerOfHanoi

/-- C8: the Tower of Hanoi run with 3 disks yields exactly 8 snapshots
(1 initial + 7 moves, matching `getMinMoves 3 = 2^3 - 1 = 7`), and the
last snapshot describes moving disk 1 onto the target peg (peg index 2,
rendered as "Peg 3"). -/
theorem c8_hanoi_three_disks :
    (TowerOfHanoi.generateStates 3).length = 8 ∧
    TowerOfHanoi.getMinMoves 3 = 7 ∧
    ((TowerOfHanoi.generateStates 3).map (·.description)).getLast? =
      some "Move disk 1 from Peg 1 to Peg 3" ∧
    ((TowerOfHanoi.generateStates 3).map (·.movingDisk)).getLast? =
      some (some 1) ∧
    ((TowerOfHanoi.generateStates 3).map (·.toPeg)).getLast? =
      some (some 2) := by
  refine ⟨?_, ?_, ?_, ?_, ?_⟩ <;> rfl

namespace NQueens

/-- Which `states.push` site of `generateStates` produced a state.  The
`board` grid, the `checking` pair and the `description` string of the
pushed objects are determined by this tag together with the data
fields (the grid is the 0/1 matrix of `queens`). -/
inductive QKind where
  | start
  | checking
  | placed
  | backtrack
  | solution
  deriving Repr, DecidableEq

/-- Data fields of one visualization state of `generateStates`. -/
structure QState where
  kind : QKind
  currentRow : ℤ
  currentCol : ℤ
  queens : List (ℕ × ℤ)
  conflicts : List (ℕ × ℤ)
  safe : Option Bool
  isSolution : Bool
  isBacktrack : Bool
  solutionsFound : ℕ
  deriving Repr, DecidableEq

/-- The `queens` list built by the loops `for (r = 0; r < row; r++) if
(board[r] >= 0) queens.push({row: r, col: board[r]})`. -/
def queensBelow (board : List ℤ) (row : ℕ) : List (ℕ × ℤ) :=
  ((List.range row).filter (fun r => 0 ≤ board.getD r (-1))).map
    (fun r => (r, board.getD r (-1)))

/-- The conflict scan of `generateStates`: for each earlier row `r`,
`c = board[r]`, conflict when `c === col` or
`Math.abs(r - row) === Math.abs(c - col)`. -/
def conflictsAt (board : List ℤ) (row col : ℕ) : List (ℕ × ℤ) :=
  ((List.range row).filter (fun r =>
    board.getD r (-1) = (col : ℤ) ∨
      |(r : ℤ) - (row : ℤ)| = |board.getD r (-1) - (col : ℤ)|)).map
    (fun r => (r, board.getD r (-1)))

mutual

/-- Body of the local `solve(row)` of `generateStates`: count and push
a solution state when `row >= n` (returning `findFirst`, which stops
the recorded search when true), else run the column loop.  The
recursion descends at most `n + 1` rows and tries at most `n` columns
each, so it terminates; the fuel makes it structural and
`generateStates` supplies more than it can consume.  Returns
`(found, board, states, solutionsFound)`. -/
def solveRow (n : ℕ) (findFirst : Bool) :
    ℕ → ℕ → List ℤ → List QState → ℕ →
      Bool × List ℤ × List QState × ℕ
  | 0, _, board, states, sols => (false, board, states, sols)
  | fuel + 1, row, board, states, sols =>
    if n ≤ row then
      let sols := sols + 1
      (findFirst, board,
        states ++
          [{ kind := QKind.solution, currentRow := -1, currentCol := -1,
             queens := queensBelow board n, conflicts := [], safe := none,
             isSolution := true, isBacktrack := false,
             solutionsFound := sols }],
        sols)
    else
      solveCols n findFirst fuel row 0 board states sols
termination_by structural fuel => fuel

/-- The `for (col = 0; col < n; col++)` loop of `solve` from column
`col` on: push a checking state; when safe, place the queen, push a
placed state, recurse into the next row, and either propagate success
or undo the placement, push a backtrack state and try the next
column. -/
def solveCols (n : ℕ) (findFirst : Bool) :
    ℕ → ℕ → ℕ → List ℤ → List QState → ℕ →
      Bool × List ℤ × List QState × ℕ
  | 0, _, _, board, states, sols => (false, board, states, sols)
  | fuel + 1, row, col, board, states, sols =>
    if n ≤ col then (false, board, states, sols)
    else
      let conflicts := conflictsAt board row col
      let safe := conflicts.isEmpty
      let states := states ++
        [{ kind := QKind.checking, currentRow := row, currentCol := col,
           queens := queensBelow board row, conflicts := conflicts,
           safe := some safe, isSolution := false, isBacktrack := false,
           solutionsFound := sols }]
      if safe then
        let board := board.set row (col : ℤ)
        let states := states ++
          [{ kind := QKind.placed, currentRow := row, currentCol := col,
             queens := queensBelow board (row + 1), conflicts := [],
             safe := none, isSolution := false, isBacktrack := false,
             solutionsFound := sols }]
        match solveRow n findFirst fuel (row + 1) board states sols with
        | (true, board, states, sols) => (true, board, states, sols)
        | (false, board, states, sols) =>
          let board := board.set row (-1)
          let states := states ++
            [{ kind := QKind.backtrack, currentRow := row, currentCol := col,
               queens := queensBelow board row, conflicts := [], safe := none,
               isSolution := false, isBacktrack := true,
               solutionsFound := sols }]
          solveCols n findFirst fuel row (col + 1) board states sols
      else
        solveCols n findFirst fuel row (col + 1) board states sols
termination_by structural fuel => fuel

end

/-- `generateStates(findFirst)`: the start state, then the recorded
backtracking search from row 0 on the board `Array(n).fill(-1)`. -/
def generateStates (n : ℕ) (findFirst : Bool) : List QState :=
  (solveRow n findFirst ((n + 2) ^ (n + 2)) 0 (List.replicate n (-1 : ℤ))
    [{ kind := QKind.start, currentRow := 0, currentCol := -1, queens := [],
       conflicts := [], safe := none, isSolution := false,
       isBacktrack := false, solutionsFound := 0 }] 0).2.2.1

end NQueens

/-- C9: for N = 4 with `findFirst = true`, the recorded run contains
exactly one solution snapshot, its counter reaches exactly 1 (the last
state reports `solutionsFound = 1` and no state exceeds 1) — although
the full search (`findFirst = false`) finds both solutions of the
4-queens puzzle. -/
theorem c9_nqueens_findfirst_one_solution :
    ((NQueens.generateStates 4 true).filter
      (fun st => st.isSolution)).length = 1 ∧
    ((NQueens.generateStates 4 true).map
      (fun st => st.solutionsFound)).getLast? = some 1 ∧
    ((NQueens.generateStates 4 true).all
      (fun st => st.solutionsFound ≤ 1)) = true ∧
    ((NQueens.generateStates 4 false).filter
      (fun st => st.isSolution)).length = 2 := by
  refine ⟨?_, ?_, ?_, ?_⟩ <;> decide
